import Mathlib

/-!
Verification of the Multi-Node-Token-Ring-Network-Over-UART core against its
natural-language specification.

The development shallowly embeds two source files:

* subsys/token_management/src/token_manager.c — the frame parser
  (try_parse_frames, token_manager_feed_data, reset_parser);
* drivers/uart/src/uart_hal.c — the UART HAL
  (uart_hal_write, uart_hal_read, uart_event_handler TX paths).

Bytes are modelled as Nat values below 256.  The C size_t arithmetic is
modelled as Nat arithmetic modulo 2^64 where the source can wrap (the
frame_start = i - 2 back-computation in try_parse_frames).  Reads of the
parse buffer outside its live contents (which in the source are reads of
stale or out-of-bounds memory, i.e. undefined behavior) are modelled by an
explicit corrupt dispatch event.
-/

namespace TokenRing

/-- Modulus of the C size_t type (64-bit target). -/
def SIZE_T_MOD : Nat := 2 ^ 64

/-- C unsigned subtraction on size_t: a - b wrapping modulo 2^64.
For a, b < 2^64 this is exactly what the source computes. -/
def csub (a b : Nat) : Nat := (a + SIZE_T_MOD - b) % SIZE_T_MOD

/-- PARSE_BUF_SIZE from token_manager.c. -/
def PARSE_BUF_SIZE : Nat := 256

/-- The enum parse_state of token_manager.c:
PARSE_STATE_IDLE, PARSE_STATE_DATA_LEN, PARSE_STATE_DATA_PAYLOAD. -/
inductive ParseState where
  | idle
  | dataLen
  | dataPayload
deriving DecidableEq

/-- The mutable module state of token_manager.c: the live contents
parse_buf[0 .. parse_buf_len) of the accumulator, the parser state, the
declared length (expected_len) and the payload-consumed counter
(payload_received). -/
structure TMState where
  buf : List Nat
  st : ParseState
  expected_len : Nat
  payload_received : Nat
deriving DecidableEq

/-- One invocation of the registered frame callback user_cb.  A frame event
carries the exact bytes handed to the callback.  A corrupt event marks a
callback invocation in which the source reads bytes outside the live
accumulator contents (out-of-bounds / stale memory, undefined behavior), so
no concrete byte list can faithfully be ascribed to it. -/
inductive Event where
  | frame (bytes : List Nat)
  | corrupt
deriving DecidableEq

/-- The frame-extraction loop of try_parse_frames:
for x in [0, n), frame[x] = parse_buf[(start + x) mod 2^64].
Returns the bytes read, or none if any index falls outside the live
contents of the accumulator. -/
def readBytes (buf : List Nat) : Nat → Nat → Option (List Nat)
  | _, 0 => some []
  | start, n + 1 =>
    match buf.get? (start % SIZE_T_MOD), readBytes buf (start + 1) n with
    | some b, some rest => some (b :: rest)
    | _, _ => none

/-- State after reset_parser(): empty accumulator, PARSE_STATE_IDLE,
expected_len = 0, payload_received = 0.  Also the state installed by
token_manager_init. -/
def TMInit : TMState := ⟨[], ParseState.idle, 0, 0⟩

/-- The while loop of try_parse_frames, one constructor argument per C
local/global it touches.  fuel bounds the iteration count; every recursive
call increases i by one, so calling with fuel = buf.length - i (or more)
makes the fuel-exhausted branch coincide with the loop-exit branch
(i >= parse_buf_len), and the function is then exactly the C loop.

Branch notes, keyed to the source:
* buf.get? i = none means i >= parse_buf_len: the loop exits; since at that
  point i >= parse_buf_len, the trailing memmove branch of the source is
  not taken and the source sets parse_buf_len = 0.
* In PARSE_STATE_DATA_PAYLOAD, when enough bytes are available the source
  computes frame_start = i - 2 in size_t (wrapping), copies
  frame_len = 2 + expected_len + 1 bytes from parse_buf starting at
  frame_start, invokes the callback, sets i = frame_start + frame_len and
  calls reset_parser(); reset_parser() zeroes parse_buf_len, so the while
  condition fails and the call returns — any bytes after the frame are
  discarded.  Hence that branch returns directly with state TMInit.
* Otherwise the source adds bytes_available to payload_received and sets
  i = parse_buf_len, exiting the loop; parse_buf_len then becomes 0. -/
def tryParseLoop (buf : List Nat) :
    Nat → ParseState → Nat → Nat → Nat → List Event → TMState × List Event
  | 0, st, el, pr, _, acc => (⟨[], st, el, pr⟩, acc)
  | fuel + 1, st, el, pr, i, acc =>
    match buf.get? i with
    | none => (⟨[], st, el, pr⟩, acc)
    | some b =>
      match st with
      | ParseState.idle =>
        if b = 0xAA then
          tryParseLoop buf fuel ParseState.idle el pr (i + 1)
            (acc ++ [Event.frame [0xAA]])
        else if b = 0xBB then
          tryParseLoop buf fuel ParseState.dataLen el pr (i + 1) acc
        else
          tryParseLoop buf fuel ParseState.idle el pr (i + 1) acc
      | ParseState.dataLen =>
        tryParseLoop buf fuel ParseState.dataPayload b 0 (i + 1) acc
      | ParseState.dataPayload =>
        let bytes_available := buf.length - i
        let total_needed := el + 1
        let needed_now := csub total_needed pr
        if needed_now ≤ bytes_available then
          let frame_start := csub i 2
          let frame_len := 2 + total_needed
          match readBytes buf frame_start frame_len with
          | some bs => (TMInit, acc ++ [Event.frame bs])
          | none => (TMInit, acc ++ [Event.corrupt])
        else
          (⟨[], ParseState.dataPayload, el, pr + bytes_available⟩, acc)

/-- Result of one token_manager_feed_data call: the module state afterwards,
the sequence of callback invocations, and whether the overflow branch was
taken (the source then logs a warning and returns without touching any
state). -/
structure FeedResult where
  state : TMState
  events : List Event
  overflow : Bool
deriving DecidableEq

/-- token_manager_feed_data(data, len): if len > PARSE_BUF_SIZE -
parse_buf_len, log and return (no state change, no callback); otherwise
append the chunk to the accumulator and run try_parse_frames. -/
def token_manager_feed_data (s : TMState) (data : List Nat) : FeedResult :=
  if data.length > PARSE_BUF_SIZE - s.buf.length then
    ⟨s, [], true⟩
  else
    let buf := s.buf ++ data
    let r := tryParseLoop buf buf.length s.st s.expected_len s.payload_received 0 []
    ⟨r.1, r.2, false⟩

/-- Feed several chunks in sequence, concatenating the dispatched events. -/
def feedChunks (s : TMState) : List (List Nat) → TMState × List Event
  | [] => (s, [])
  | c :: cs =>
    let r := token_manager_feed_data s c
    let rest := feedChunks r.state cs
    (rest.1, r.events ++ rest.2)

/-- Modelled from the spec: the spec leaves the checksum algorithm to the
implementer, naming XOR of the payload bytes as one documented candidate.
The source contains no checksum computation at all, so this definition
follows the spec words only; it is used solely to exhibit frames whose
checksum byte is wrong under either documented candidate. -/
def checksum_xor (payload : List Nat) : Nat :=
  payload.foldl Nat.xor 0

/-- Modelled from the spec: the other documented checksum candidate, the
sum of the payload bytes truncated to one byte.  Not present in the source. -/
def checksum_sum (payload : List Nat) : Nat :=
  payload.foldl (· + ·) 0 % 256

/-!
UART HAL model (drivers/uart/src/uart_hal.c).

The ring buffers are Zephyr sys/ring_buffer instances; their functional
behavior, per the Zephyr API contract the source relies on, is modelled
here directly: ring_buf_put appends as many bytes as fit in the remaining
capacity and returns how many were stored; ring_buf_get removes and
returns up to the requested number of bytes in FIFO order.

uart_tx is the transport send primitive; its success or failure is an
input of each step (parameter ok below).  The abstract field outstanding
records the chunk currently submitted to the transport and awaiting its
UART_TX_DONE or UART_TX_ABORTED event; the source itself has no such
variable, the field is the ghost state the temporal claim speaks about.
-/

/-- A Zephyr ring buffer: live FIFO contents plus capacity. -/
structure RingBuf where
  data : List Nat
  cap : Nat
deriving DecidableEq

/-- ring_buf_put: append as many bytes as fit, return (new buffer, count
actually stored). -/
def ring_buf_put (rb : RingBuf) (bytes : List Nat) : RingBuf × Nat :=
  let accepted := bytes.take (rb.cap - rb.data.length)
  (⟨rb.data ++ accepted, rb.cap⟩, accepted.length)

/-- ring_buf_get: remove and return up to maxLen bytes, FIFO order. -/
def ring_buf_get (rb : RingBuf) (maxLen : Nat) : RingBuf × List Nat :=
  (⟨rb.data.drop maxLen, rb.cap⟩, rb.data.take maxLen)

/-- errno value -EINVAL as returned by the source. -/
def EINVAL_NEG : Int := -22

/-- errno value -EIO as returned by the source. -/
def EIO_NEG : Int := -5

/-- UART_TX_BUFFER_SIZE from uart_hal.c. -/
def UART_TX_BUFFER_SIZE : Nat := 256

/-- The transmit-side state of uart_hal.c: the TX ring buffer, the
tx_in_progress flag, and the ghost record of the chunk submitted to
uart_tx and awaiting its completion or abort event. -/
structure TxState where
  txBuf : RingBuf
  tx_in_progress : Bool
  outstanding : Option (List Nat)
deriving DecidableEq

/-- Transmit-side state after uart_hal_init: empty TX ring buffer of
capacity UART_TX_BUFFER_SIZE, no transmission in flight. -/
def TxInit : TxState := ⟨⟨[], UART_TX_BUFFER_SIZE⟩, false, none⟩

/-- uart_hal_write(data, length).  data = none models a NULL pointer.
ok models the return value of the uart_tx call, when one is made
(true: uart_tx returned 0).  Returns the new state and the int result. -/
def uart_hal_write (s : TxState) (data : Option (List Nat)) (ok : Bool) :
    TxState × Int :=
  match data with
  | none => (s, EINVAL_NEG)
  | some bytes =>
    if bytes.length = 0 then (s, EINVAL_NEG)
    else
      let put := ring_buf_put s.txBuf bytes
      if put.2 = 0 then ({ s with txBuf := put.1 }, EIO_NEG)
      else if s.tx_in_progress then ({ s with txBuf := put.1 }, Int.ofNat put.2)
      else
        let got := ring_buf_get put.1 64
        if got.2.length = 0 then ({ s with txBuf := put.1 }, Int.ofNat put.2)
        else if ok then
          (⟨got.1, true, some got.2⟩, Int.ofNat put.2)
        else
          (⟨got.1, false, s.outstanding⟩, EIO_NEG)

/-- True exactly when uart_hal_write, called on state s with this data,
reaches the uart_tx call (submits a new chunk to the transport). -/
def write_submits (s : TxState) (data : Option (List Nat)) : Bool :=
  match data with
  | none => false
  | some bytes =>
    if bytes.length = 0 then false
    else
      let put := ring_buf_put s.txBuf bytes
      if put.2 = 0 then false
      else if s.tx_in_progress then false
      else decide (0 < (ring_buf_get put.1 64).2.length)

/-- The UART_TX_DONE arm of uart_event_handler: dequeue up to 64 bytes;
if nonempty, submit them via uart_tx (clearing tx_in_progress on failure),
otherwise clear tx_in_progress.  ok models the uart_tx result.  The ghost
outstanding field drops the completed chunk and records the new one when
a submission succeeds. -/
def uart_tx_done (s : TxState) (ok : Bool) : TxState :=
  let got := ring_buf_get s.txBuf 64
  if got.2.length = 0 then ⟨got.1, false, none⟩
  else if ok then ⟨got.1, s.tx_in_progress, some got.2⟩
  else ⟨got.1, false, none⟩

/-- The UART_TX_ABORTED arm of uart_event_handler: clear tx_in_progress;
the aborted chunk is no longer outstanding. -/
def uart_tx_aborted (s : TxState) : TxState :=
  { s with tx_in_progress := false, outstanding := none }

/-- One step of the transmit machinery: an application uart_hal_write call,
or a completion/abort event for the chunk currently outstanding (the
transport delivers these events only for a submitted chunk). -/
inductive TxStep : TxState → TxState → Prop where
  | write (s : TxState) (data : Option (List Nat)) (ok : Bool) :
      TxStep s (uart_hal_write s data ok).1
  | txDone (s : TxState) (c : List Nat) (ok : Bool)
      (h : s.outstanding = some c) : TxStep s (uart_tx_done s ok)
  | txAborted (s : TxState) (c : List Nat)
      (h : s.outstanding = some c) : TxStep s (uart_tx_aborted s)

/-- States of the transmit machinery reachable from the initialized state. -/
inductive TxReachable : TxState → Prop where
  | init : TxReachable TxInit
  | step {s s' : TxState} : TxReachable s → TxStep s s' → TxReachable s'

/-!
Inbound side: uart_hal_read over the RX ring buffer.
-/

/-- uart_hal_read(data, length).  dstNull models a NULL destination
pointer.  Returns the new RX buffer, the bytes delivered, and the int
result. -/
def uart_hal_read (rx : RingBuf) (dstNull : Bool) (length : Nat) :
    RingBuf × List Nat × Int :=
  if dstNull ∨ length = 0 then (rx, [], EINVAL_NEG)
  else
    let got := ring_buf_get rx length
    (got.1, got.2, Int.ofNat got.2.length)

/-- A transmit state whose outbound ring buffer is completely full. -/
def txFull : TxState := ⟨⟨List.replicate 256 0, 256⟩, false, none⟩

/-- The in-flight invariant: tx_in_progress is set exactly while a chunk
submitted to the transport awaits its completion or abort event. -/
def TxInv (s : TxState) : Prop :=
  s.tx_in_progress = true ↔ s.outstanding.isSome = true

/-!
Helper lemmas about the parser model.
-/

/-- C unsigned subtraction agrees with Nat subtraction when it cannot wrap. -/
theorem csub_eq_sub (a b : Nat) (hba : b ≤ a) (ha : a < SIZE_T_MOD) :
    csub a b = a - b := by
  simp only [csub, SIZE_T_MOD] at *
  omega

/-- Reading n in-range bytes starting at s returns exactly that slice of the
accumulator. -/
theorem readBytes_of_le (buf : List Nat) (hm : buf.length < SIZE_T_MOD) :
    ∀ (n s : Nat), s + n ≤ buf.length →
      readBytes buf s n = some ((buf.drop s).take n) := by
  intro n
  induction n with
  | zero => intro s h; simp [readBytes]
  | succ m ih =>
    intro s h
    have hs : s < buf.length := by omega
    have hmod : s % SIZE_T_MOD = s := Nat.mod_eq_of_lt (by omega)
    rw [readBytes, hmod, List.get?_eq_get hs, ih (s + 1) (by omega)]
    show some (buf.get ⟨s, hs⟩ :: (buf.drop (s + 1)).take m)
        = some ((buf.drop s).take (m + 1))
    rw [List.drop_eq_getElem_cons hs]
    rfl

/-- Every terminating branch of the try_parse_frames loop leaves
parse_buf_len = 0: the trailing memmove branch of the source is dead code. -/
theorem tryParseLoop_buf_nil (buf : List Nat) :
    ∀ (fuel : Nat) (st : ParseState) (el pr i : Nat) (acc : List Event),
      ((tryParseLoop buf fuel st el pr i acc).1).buf = [] := by
  intro fuel
  induction fuel with
  | zero => intro st el pr i acc; rfl
  | succ m ih =>
    intro st el pr i acc
    rw [tryParseLoop]
    cases hb : buf.get? i with
    | none => rfl
    | some b =>
      cases st with
      | idle =>
        by_cases h1 : b = 0xAA
        · simp [h1, ih]
        · by_cases h2 : b = 0xBB
          · simp [h1, h2, ih]
          · simp [h1, h2, ih]
      | dataLen => simp [ih]
      | dataPayload =>
        by_cases h : csub (el + 1) pr ≤ buf.length - i
        · cases hr : readBytes buf (csub i 2) (2 + (el + 1)) with
          | none => simp [h, hr, TMInit]
          | some bs => simp [h, hr, TMInit]
        · simp [h]

/-!
Claim theorems about the frame parser.
-/

/-- C7: starting from the initial parser state, a single
token_manager_feed_data call with the two bytes 0xAA 0xAA dispatches
exactly two Token frames, in order, and leaves the parser in the Idle
state (with an empty accumulator). -/
theorem feed_two_token_bytes :
    token_manager_feed_data TMInit [0xAA, 0xAA]
      = ⟨TMInit, [Event.frame [0xAA], Event.frame [0xAA]], false⟩ := by
  decide

/-- C2: counterexample evaluation.  Feeding the byte stream
0xBB 0x00 0x00 0xAA (one zero-length Data frame followed by one Token
frame) in a single call dispatches only the Data frame: after the frame
completes, reset_parser() zeroes parse_buf_len inside the loop, so the
trailing Token marker is silently discarded.  Feeding the same stream as
two chunks dispatches both frames.  The dispatched sequences differ, so
chunking is observable. -/
theorem chunking_changes_dispatch :
    (feedChunks TMInit [[0xBB, 0x00, 0x00, 0xAA]]).2
        = [Event.frame [0xBB, 0x00, 0x00]] ∧
    (feedChunks TMInit [[0xBB, 0x00, 0x00], [0xAA]]).2
        = [Event.frame [0xBB, 0x00, 0x00], Event.frame [0xAA]] := by
  decide

/-- C3: evaluation at the failing input of spec Example 1.  Feeding
0xBB 0x03 0x61 and then 0x62 0x63 0x60 dispatches nothing in the first
call; in the second call the frame completes, but the source computes
frame_start = i - 2 = 0 - 2 in size_t (the marker and length byte were
discarded with the previous accumulator contents), wrapping to 2^64 - 2,
and copies the six dispatched bytes from out-of-bounds memory.  The single
dispatch is therefore the corrupt out-of-bounds read, not the Data frame
with payload abc that the claim describes. -/
theorem straddled_frame_corrupt_dispatch :
    (token_manager_feed_data TMInit [0xBB, 0x03, 0x61]).events = [] ∧
    (token_manager_feed_data
        (token_manager_feed_data TMInit [0xBB, 0x03, 0x61]).state
        [0x62, 0x63, 0x60]).events = [Event.corrupt] := by
  decide

/-- C9: the dispatch shape.  When a Data frame with declared length L lies
entirely inside one feed call, the callback receives the raw frame bytes —
marker 0xBB, the length byte, the L payload bytes and the checksum byte,
L + 3 bytes in all — and a Token frame is delivered as the single byte
0xAA; but when the frame straddles feed calls, the callback instead
receives bytes read out of bounds (frame_start = i - 2 wraps), so the
universally quantified claim fails there. -/
theorem dispatch_shape_and_straddle_corruption :
    (token_manager_feed_data TMInit [0xBB, 0x02, 0x61, 0x62, 0x00]).events
        = [Event.frame [0xBB, 0x02, 0x61, 0x62, 0x00]] ∧
    (token_manager_feed_data TMInit [0xAA]).events = [Event.frame [0xAA]] ∧
    (token_manager_feed_data
        (token_manager_feed_data TMInit [0xBB, 0x02, 0x61]).state
        [0x62, 0x00]).events = [Event.corrupt] := by
  decide

/-- C1: counterexample.  The stream of spec Example 3 — a Data frame with
declared length 2, payload 0x78 0x79 and checksum byte 0x00, which is
wrong under both documented checksum candidates (XOR gives 0x01, the
truncated sum gives 0xF1) — is dispatched anyway: try_parse_frames never
validates the checksum byte. -/
theorem bad_checksum_frame_dispatched :
    (token_manager_feed_data TMInit [0xBB, 0x02, 0x78, 0x79, 0x00]).events
        = [Event.frame [0xBB, 0x02, 0x78, 0x79, 0x00]] ∧
    checksum_xor [0x78, 0x79] ≠ 0x00 ∧
    checksum_sum [0x78, 0x79] ≠ 0x00 := by
  decide

/-- C4: for every parser state and every chunk larger than the remaining
accumulator capacity, token_manager_feed_data drops the entire chunk,
signals the overflow (the logged warning branch), and leaves the parser
state and accumulator contents unchanged. -/
theorem overflow_drops_whole_chunk (s : TMState) (data : List Nat)
    (h : PARSE_BUF_SIZE - s.buf.length < data.length) :
    token_manager_feed_data s data = ⟨s, [], true⟩ := by
  unfold token_manager_feed_data
  rw [if_pos h]

set_option maxRecDepth 8192

/-- Witness for the overflow theorem: a 257-byte chunk fed to the initial
state exceeds the 256-byte accumulator and is dropped whole. -/
theorem overflow_drops_whole_chunk_witness :
    PARSE_BUF_SIZE - TMInit.buf.length < (List.replicate 257 0).length ∧
    token_manager_feed_data TMInit (List.replicate 257 0)
      = ⟨TMInit, [], true⟩ :=
  ⟨by decide, overflow_drops_whole_chunk TMInit (List.replicate 257 0) (by decide)⟩

/-- C8: after every feed call that is not rejected for overflow, the
accumulator is empty — no raw bytes are retained between feed calls; only
the state tag, the declared length and the payload-consumed counter
persist. -/
theorem feed_leaves_accumulator_empty (s : TMState) (data : List Nat)
    (h : (token_manager_feed_data s data).overflow = false) :
    (token_manager_feed_data s data).state.buf = [] := by
  unfold token_manager_feed_data at *
  by_cases hc : data.length > PARSE_BUF_SIZE - s.buf.length
  · rw [if_pos hc] at h
    simp at h
  · rw [if_neg hc]
    exact tryParseLoop_buf_nil (s.buf ++ data) (s.buf ++ data).length
      s.st s.expected_len s.payload_received 0 []

/-- Witness for the empty-accumulator theorem: feeding a lone Data marker
is accepted and leaves the accumulator empty even though the parser is
mid-frame. -/
theorem feed_leaves_accumulator_empty_witness :
    (token_manager_feed_data TMInit [0xBB]).overflow = false ∧
    (token_manager_feed_data TMInit [0xBB]).state.buf = [] :=
  ⟨by decide, feed_leaves_accumulator_empty TMInit [0xBB] (by decide)⟩

/-- Trace of the try_parse_frames loop over one whole Data frame placed at
the start of the accumulator: the marker is consumed, the length byte is
recorded, and the payload case completes the frame in the same pass,
dispatching the raw frame bytes and resetting the parser; nothing about
the checksum byte k is ever inspected. -/
theorem tryParseLoop_whole_frame (L : Nat) (payload : List Nat) (k : Nat)
    (hlen : payload.length = L) (hL : L ≤ 253) :
    tryParseLoop (0xBB :: L :: (payload ++ [k])) (L + 3)
        ParseState.idle 0 0 0 []
      = (TMInit, [Event.frame (0xBB :: L :: (payload ++ [k]))]) := by
  have hblen : (0xBB :: L :: (payload ++ [k])).length = L + 3 := by
    simp [hlen]
  obtain ⟨b, hb⟩ : ∃ b, (payload ++ [k]).get? 0 = some b := by
    cases hg : (payload ++ [k]).get? 0 with
    | none =>
      rw [List.get?_eq_none] at hg
      simp at hg
    | some b => exact ⟨b, rfl⟩
  have hread : readBytes (0xBB :: L :: (payload ++ [k])) 0 (2 + (L + 1))
      = some (0xBB :: L :: (payload ++ [k])) := by
    have h2 : 2 + (L + 1) = L + 3 := by omega
    rw [h2, readBytes_of_le _ (by rw [hblen]; simp [SIZE_T_MOD]; omega)
          (L + 3) 0 (by omega)]
    simp [← hblen]
  have hc1 : csub (L + 1) 0 = L + 1 := by
    rw [csub_eq_sub (L + 1) 0 (by omega) (by simp [SIZE_T_MOD]; omega)]
    omega
  have hc2 : csub 2 2 = 0 := by decide
  rw [show L + 3 = (L + 2) + 1 from rfl, tryParseLoop]
  simp only [List.get?_cons_zero]
  norm_num
  rw [show L + 2 = (L + 1) + 1 from rfl, tryParseLoop]
  simp only [List.get?_cons_succ, List.get?_cons_zero]
  rw [tryParseLoop]
  simp only [List.get?_cons_succ, hb]
  simp only [hblen, hc1, hc2, hread]
  norm_num
  omega

/-- C1 amended: a complete Data frame fed in one call — marker 0xBB,
length byte L, L payload bytes and an arbitrary checksum byte k — is
always dispatched (the checksum is not validated), the parser returns to
Idle with an empty accumulator, and a marker byte fed in a subsequent call
is parsed as a Token frame. -/
theorem data_frame_dispatched_regardless_of_checksum
    (L : Nat) (payload : List Nat) (k : Nat)
    (hlen : payload.length = L) (hL : L ≤ 253) :
    (token_manager_feed_data TMInit ([0xBB, L] ++ payload ++ [k])).events
        = [Event.frame ([0xBB, L] ++ payload ++ [k])] ∧
    (token_manager_feed_data TMInit ([0xBB, L] ++ payload ++ [k])).state
        = TMInit ∧
    (token_manager_feed_data
        (token_manager_feed_data TMInit ([0xBB, L] ++ payload ++ [k])).state
        [0xAA]).events = [Event.frame [0xAA]] := by
  have hstream : ([0xBB, L] ++ payload ++ [k]) = 0xBB :: L :: (payload ++ [k]) := by
    simp
  have hfeed : token_manager_feed_data TMInit ([0xBB, L] ++ payload ++ [k])
      = ⟨TMInit, [Event.frame (0xBB :: L :: (payload ++ [k]))], false⟩ := by
    unfold token_manager_feed_data
    rw [hstream]
    have hblen : (0xBB :: L :: (payload ++ [k])).length = L + 3 := by
      simp [hlen]
    rw [if_neg (by simp [TMInit, hblen, PARSE_BUF_SIZE]; omega)]
    simp only [TMInit, List.nil_append, hblen]
    rw [tryParseLoop_whole_frame L payload k hlen hL]
    rfl
  rw [hfeed, hstream]
  refine ⟨rfl, rfl, ?_⟩
  show (token_manager_feed_data TMInit [0xAA]).events = [Event.frame [0xAA]]
  decide

/-- Witness for the amended checksum theorem: the Example 3 frame with its
deliberately wrong checksum byte 0x00 is dispatched whole and a Token
marker fed afterwards is parsed. -/
theorem data_frame_dispatched_regardless_of_checksum_witness :
    ([0x78, 0x79] : List Nat).length = 2 ∧ 2 ≤ 253 ∧
    ((token_manager_feed_data TMInit ([0xBB, 2] ++ [0x78, 0x79] ++ [0x00])).events
        = [Event.frame ([0xBB, 2] ++ [0x78, 0x79] ++ [0x00])] ∧
     (token_manager_feed_data TMInit ([0xBB, 2] ++ [0x78, 0x79] ++ [0x00])).state
        = TMInit ∧
     (token_manager_feed_data
        (token_manager_feed_data TMInit ([0xBB, 2] ++ [0x78, 0x79] ++ [0x00])).state
        [0xAA]).events = [Event.frame [0xAA]]) :=
  ⟨rfl, by omega,
   data_frame_dispatched_regardless_of_checksum 2 [0x78, 0x79] 0 rfl (by omega)⟩

/-!
Claim theorems about the UART HAL.
-/

/-- C5: counterexample.  With the outbound ring buffer full, uart_hal_write
on one byte returns the error code -EIO, not an accepted count of 0 as the
claim states. -/
theorem write_full_returns_eio :
    (uart_hal_write txFull (some [1]) true).2 = EIO_NEG ∧ EIO_NEG ≠ 0 := by
  decide

/-- C5 amended: uart_hal_write fails with -EINVAL on a NULL pointer or a
zero length; when the outbound ring buffer is full it fails with -EIO —
reported through the return value, with no blocking wait — and leaves the
state unchanged. -/
theorem write_invalid_and_full_results (s : TxState) (bytes : List Nat)
    (ok : Bool) (hfull : s.txBuf.cap ≤ s.txBuf.data.length)
    (hne : bytes ≠ []) :
    (uart_hal_write s none ok).2 = EINVAL_NEG ∧
    (uart_hal_write s (some []) ok).2 = EINVAL_NEG ∧
    (uart_hal_write s (some bytes) ok).2 = EIO_NEG ∧
    (uart_hal_write s (some bytes) ok).1 = s := by
  refine ⟨rfl, rfl, ?_, ?_⟩ <;>
  · rcases s with ⟨⟨d, c⟩, p, o⟩
    simp only at hfull
    simp [uart_hal_write, ring_buf_put, Nat.sub_eq_zero_of_le hfull,
      List.length_eq_zero, hne]

/-- Witness for the amended write theorem at the concrete full state. -/
theorem write_invalid_and_full_results_witness :
    txFull.txBuf.cap ≤ txFull.txBuf.data.length ∧ ([1] : List Nat) ≠ [] ∧
    ((uart_hal_write txFull none true).2 = EINVAL_NEG ∧
     (uart_hal_write txFull (some []) true).2 = EINVAL_NEG ∧
     (uart_hal_write txFull (some [1]) true).2 = EIO_NEG ∧
     (uart_hal_write txFull (some [1]) true).1 = txFull) :=
  ⟨by decide, by decide,
   write_invalid_and_full_results txFull [1] true (by decide) (by decide)⟩

/-- Every step of the transmit machinery preserves the in-flight
invariant. -/
theorem txStep_preserves_inv {s t : TxState} (hinv : TxInv s)
    (hstep : TxStep s t) : TxInv t := by
  unfold TxInv at hinv ⊢
  cases hstep with
  | write data ok =>
    cases data with
    | none => exact hinv
    | some bytes =>
      by_cases h0 : bytes.length = 0
      · simpa [uart_hal_write, h0] using hinv
      · by_cases hp : (ring_buf_put s.txBuf bytes).2 = 0
        · simpa [uart_hal_write, h0, hp] using hinv
        · by_cases hin : s.tx_in_progress
          · simpa [uart_hal_write, h0, hp, hin] using hinv
          · by_cases hg : (ring_buf_get (ring_buf_put s.txBuf bytes).1 64).2.length = 0
            · simpa [uart_hal_write, h0, hp, hin, hg] using hinv
            · cases ok with
              | true => simp [uart_hal_write, h0, hp, hin, hg]
              | false =>
                simp only [uart_hal_write, h0, hp, hin, hg]
                simp only [Bool.false_eq_true, false_iff] at hinv ⊢
                · simpa [hin] using hinv
  | txDone c ok h =>
    cases ok with
    | true =>
      by_cases hg : (ring_buf_get s.txBuf 64).2.length = 0
      · simp [uart_tx_done, hg]
      · simp only [uart_tx_done, hg]
        simp [h] at hinv
        simp [hinv]
    | false =>
      by_cases hg : (ring_buf_get s.txBuf 64).2.length = 0 <;>
        simp [uart_tx_done, hg]
  | txAborted c h => simp [uart_tx_aborted]

/-- Every reachable transmit state satisfies the in-flight invariant. -/
theorem txReachable_inv (s : TxState) (h : TxReachable s) : TxInv s := by
  induction h with
  | init => simp [TxInv, TxInit]
  | step hr hs ih => exact txStep_preserves_inv ih hs

/-- C6: in every reachable state of the transmit machinery, tx_in_progress
is true exactly while a successfully submitted chunk awaits its matching
completion or abort event, and uart_hal_write reaches the uart_tx call
only when no chunk is outstanding. -/
theorem tx_in_flight_exact (s : TxState) (data : Option (List Nat))
    (hs : TxReachable s) :
    (s.tx_in_progress = true ↔ s.outstanding.isSome = true) ∧
    (write_submits s data = true → s.outstanding = none) := by
  have hinv := txReachable_inv s hs
  unfold TxInv at hinv
  refine ⟨hinv, ?_⟩
  intro hw
  have hin : s.tx_in_progress = false := by
    cases data with
    | none => simp [write_submits] at hw
    | some bytes =>
      by_cases h0 : bytes.length = 0
      · simp [write_submits, h0] at hw
      · by_cases hp : (ring_buf_put s.txBuf bytes).2 = 0
        · simp [write_submits, h0, hp] at hw
        · by_cases hin : s.tx_in_progress
          · simp [write_submits, h0, hp, hin] at hw
          · simpa using hin
  rw [Option.eq_none_iff_forall_not_mem]
  intro c hc
  have : s.outstanding.isSome = true := by
    cases ho : s.outstanding with
    | none => rw [ho] at hc; simp at hc
    | some d => simp
  rw [← hinv] at this
  rw [hin] at this
  exact Bool.noConfusion this

/-- Witness for the in-flight theorem at the initialized state: the
invariant holds there and a first write submits only because nothing is
outstanding. -/
theorem tx_in_flight_exact_witness :
    TxReachable TxInit ∧
    (TxInit.tx_in_progress = true ↔ TxInit.outstanding.isSome = true) ∧
    TxInit.outstanding = none :=
  ⟨TxReachable.init,
   (tx_in_flight_exact TxInit (some [1]) TxReachable.init).1,
   (tx_in_flight_exact TxInit (some [1]) TxReachable.init).2 (by decide)⟩

/-- C10: uart_hal_read fails with -EINVAL on a NULL destination or a zero
maximum length, leaving the RX ring buffer untouched; otherwise it never
signals an error for an empty buffer — the result is the nonnegative count
of bytes delivered, 0 when nothing is available. -/
theorem read_invalid_args_and_empty (rx : RingBuf) (length : Nat) :
    uart_hal_read rx true length = (rx, [], EINVAL_NEG) ∧
    uart_hal_read rx false 0 = (rx, [], EINVAL_NEG) ∧
    (0 < length → 0 ≤ (uart_hal_read rx false length).2.2) ∧
    (0 < length → rx.data = [] →
      (uart_hal_read rx false length).2.2 = 0) := by
  refine ⟨by simp [uart_hal_read], by simp [uart_hal_read], ?_, ?_⟩
  · intro h
    simp [uart_hal_read, Nat.pos_iff_ne_zero.mp h, ring_buf_get]
  · intro h he
    simp [uart_hal_read, Nat.pos_iff_ne_zero.mp h, ring_buf_get, he]

/-- Witness for the read theorem on an empty RX buffer of capacity 256. -/
theorem read_invalid_args_and_empty_witness :
    uart_hal_read ⟨[], 256⟩ true 5 = (⟨[], 256⟩, [], EINVAL_NEG) ∧
    0 ≤ (uart_hal_read ⟨[], 256⟩ false 5).2.2 ∧
    (uart_hal_read ⟨[], 256⟩ false 5).2.2 = 0 :=
  ⟨(read_invalid_args_and_empty ⟨[], 256⟩ 5).1,
   (read_invalid_args_and_empty ⟨[], 256⟩ 5).2.2.1 (by decide),
   (read_invalid_args_and_empty ⟨[], 256⟩ 5).2.2.2 (by decide) rfl⟩

end TokenRing
